import Mathlib

/-!
Verification of the order-lifecycle core of the Hood Shop backend.

The definitions below are a shallow embedding of the Express route handlers:

* `createOrder`    embeds `router.post('/')` of the orders route
  (validation, order insert, line insert with compensating delete,
  status-history seeding, best-effort stock decrement);
* `updateOrderStatus` and `updateOrderNotes` embed the admin routes
  `PATCH /orders/:orderId/status` and `PATCH /orders/:orderId/notes`;
* `myOrdersHistory` / `adminOrderHistory` embed the nested
  `order_status_history` selects of `GET /my-orders` and the admin
  `GET /orders/:orderId`;
* `trackOrder` and `trackOrderUpdates` embed the public tracking routes
  `GET /track/:orderNumber` and `GET /track/:orderNumber/updates`.

JavaScript conventions are embedded explicitly: a missing object is an
`Option` that is `none`; a missing-or-empty string is `""` (both are falsy
and the handlers only test falsiness); monetary amounts and prices are
rationals; `a || b` on strings is `jsStrOr`.  Store writes that can fail
are driven by a `FailureOracle` recording which inserts error, matching
the `{ data, error }` results the Supabase client returns.
-/

/-- Raw shipping address as destructured from the request body
(`shipping_address.address`, `.city`, `.state`, `.zipCode`, `.country`,
`.phoneCode`, `.phone`, optional `.email` / `.fullName`).
An absent or empty string field is `""` (both are falsy in the source). -/
structure ShippingAddress where
  address : String
  city : String
  state : String
  zipCode : String
  country : String
  phoneCode : String
  phone : String
  email : Option String := none
  fullName : Option String := none
deriving Repr, DecidableEq, Inhabited

/-- A request item price is either a number or a formatted string
(the source handles both: `typeof item.price === 'string'`). -/
inductive PriceVal where
  | pnum (v : ℚ)
  | pstr (s : String)
deriving Repr, DecidableEq

/-- One entry of the `items` array of the request body. -/
structure Item where
  id : Nat
  name : String
  price : PriceVal
  quantity : Int
  selectedSize : Option String := none
  size : Option String := none
  selectedColor : Option String := none
  color : Option String := none
deriving Repr, DecidableEq

/-- The order-creation request body.  `items` is `none` when the field is
missing or not an array (`!items || !Array.isArray(items)`). -/
structure OrderRequest where
  items : Option (List Item)
  shipping_address : Option ShippingAddress
  payment_method : Option String := none
  subtotal : Option ℚ := none
  shipping_cost : Option ℚ := none
  tax : Option ℚ := none
  total_amount : Option ℚ
deriving Repr, DecidableEq

/-- The `formattedShippingAddress` object persisted on the order row. -/
structure FormattedAddress where
  street : String
  city : String
  state : String
  zip_code : String
  country : String
  phone_code : String
  phone : String
deriving Repr, DecidableEq

/-- A row of the `orders` table (the columns the handlers read or write). -/
structure Order where
  id : Nat
  user_id : Nat
  order_number : String
  total_amount : ℚ
  status : String
  payment_status : String
  payment_method : String
  shipping_address : FormattedAddress
  tracking_number : Option String := none
  notes : Option String := none
  created_at : Nat := 0
deriving Repr, DecidableEq

/-- A row of the `order_items` table.  `price` is `none` when `parseFloat`
produced `NaN` (the source stores whatever `parseFloat` returns). -/
structure OrderLine where
  order_id : Nat
  product_id : Nat
  product_name : String
  quantity : Int
  price : Option ℚ
  selected_size : Option String
  selected_color : Option String
deriving Repr, DecidableEq

/-- A row of the `order_status_history` table. -/
structure HistoryEntry where
  order_id : Nat
  status : String
  comment : Option String
  updated_by : Option Nat
  created_at : Nat
deriving Repr, DecidableEq

/-- A row of the `products` table (only the stock counter is touched here). -/
structure Product where
  id : Nat
  stock : Int
deriving Repr, DecidableEq

/-- A row of the `users` table (owner of an order; used by the tracking
lookup to check the supplied email). -/
structure User where
  id : Nat
  email : String
deriving Repr, DecidableEq

/-- The relational store.  `nextId` is the store-generated primary key for
the next inserted order; `now` is the store clock stamped onto
`created_at` columns and advanced on every insert. -/
structure DB where
  orders : List Order
  order_items : List OrderLine
  order_status_history : List HistoryEntry
  products : List Product
  users : List User
  nextId : Nat
  now : Nat
deriving Repr, DecidableEq

/-- Which store inserts of the order-creation sequence return an `error`
(the Supabase client reports failures in-band, it does not throw). -/
structure FailureOracle where
  orderInsertFails : Bool
  itemsInsertFails : Bool
  historyInsertFails : Bool
deriving Repr, DecidableEq

/-- The oracle of a run in which every store write succeeds. -/
def FailureOracle.none : FailureOracle :=
  { orderInsertFails := false, itemsInsertFails := false, historyInsertFails := false }

/-- JavaScript `a || b` on an optional string: `a` unless it is absent or
empty (falsy). -/
def jsStrOr (a : Option String) (b : String) : String :=
  match a with
  | some v => if v = "" then b else v
  | Option.none => b

/-- JavaScript `a || b || null` on two optional strings, as in
`item.selectedSize || item.size || null`. -/
def jsStrOr2 (a b : Option String) : Option String :=
  match a with
  | some v =>
    if v = "" then
      match b with
      | some w => if w = "" then Option.none else some w
      | Option.none => Option.none
    else some v
  | Option.none =>
    match b with
    | some w => if w = "" then Option.none else some w
    | Option.none => Option.none

/-- JavaScript truthiness of an optional string argument. -/
def truthyStr (a : Option String) : Bool :=
  match a with
  | some v => v ≠ ""
  | Option.none => false

/-- Validation of the order-creation request, in the order the source
checks it.  `some msg` is the 400 response body; `none` means the request
passes validation. -/
def validateOrder (req : OrderRequest) : Option String :=
  match req.items with
  | Option.none => some "Order items are required"
  | some items =>
    if items.isEmpty then some "Order items are required"
    else
      match req.shipping_address with
      | Option.none => some "Complete shipping address is required"
      | some sa =>
        if sa.address = "" ∨ sa.city = "" ∨ sa.state = "" ∨ sa.zipCode = "" then
          some "Complete shipping address is required"
        else if sa.country = "" then
          some "Country is required"
        else if sa.phoneCode = "" ∨ sa.phone = "" then
          some "Phone number with country code is required"
        else
          match req.total_amount with
          | Option.none => some "Invalid order total"
          | some t => if t ≤ 0 then some "Invalid order total" else Option.none

/-- Drop the first `'$'` of a string, as `String.prototype.replace('$','')`
does (it replaces only the first occurrence). -/
def removeFirstDollar : List Char → List Char
  | [] => []
  | c :: cs => if c = '$' then cs else c :: removeFirstDollar cs

/-- Split a leading run of decimal digits off a character list. -/
def takeDigits : List Char → List Char × List Char
  | [] => ([], [])
  | c :: cs =>
    if c.isDigit then
      let p := takeDigits cs
      (c :: p.1, p.2)
    else ([], c :: cs)

/-- Numeric value of a digit run. -/
def digitsToNat (ds : List Char) : Nat :=
  ds.foldl (fun acc c => acc * 10 + (c.toNat - 48)) 0

/-- JavaScript `parseFloat` on the sign/digits/fraction fragment it is
applied to here (price and amount strings): skip spaces, optional sign,
digits with an optional fraction, ignore any trailing text; `none` is
`NaN` (no digits parsed). -/
def parseFloatQ (s : String) : Option ℚ :=
  let cs := s.toList.dropWhile (fun c => c = ' ')
  let signed : ℚ × List Char :=
    match cs with
    | '-' :: r => (-1, r)
    | '+' :: r => (1, r)
    | r => (1, r)
  let ip := takeDigits signed.2
  match ip.2 with
  | '.' :: r =>
    let fp := takeDigits r
    if ip.1.isEmpty ∧ fp.1.isEmpty then Option.none
    else some (signed.1 * ((digitsToNat ip.1 : ℚ) + (digitsToNat fp.1 : ℚ) / (10 ^ fp.1.length)))
  | _ => if ip.1.isEmpty then Option.none else some (signed.1 * (digitsToNat ip.1 : ℚ))

/-- `parseFloat(typeof item.price === 'string' ? item.price.replace('$','') : item.price)`. -/
def parseItemPrice : PriceVal → Option ℚ
  | PriceVal.pnum v => some v
  | PriceVal.pstr s => parseFloatQ (String.mk (removeFirstDollar s.toList))

/-- The generated order number
`ORD-${Date.now()}-${random token}`; never empty by construction. -/
def mkOrderNumber (clock : Nat) (rand : String) : String :=
  "ORD-" ++ toString clock ++ "-" ++ rand

/-- The `formattedShippingAddress` built from the request address. -/
def formatAddress (sa : ShippingAddress) : FormattedAddress :=
  { street := sa.address, city := sa.city, state := sa.state,
    zip_code := sa.zipCode, country := sa.country,
    phone_code := sa.phoneCode, phone := sa.phone }

/-- One `order_items` row built from a request item (the `items.map`
of the source). -/
def mkLine (orderId : Nat) (it : Item) : OrderLine :=
  { order_id := orderId, product_id := it.id, product_name := it.name,
    quantity := it.quantity, price := parseItemPrice it.price,
    selected_size := jsStrOr2 it.selectedSize it.size,
    selected_color := jsStrOr2 it.selectedColor it.color }

/-- Stock of the product with the given id
(`select('stock').eq('id', item.id).single()`): the first matching row. -/
def lookupStock (ps : List Product) (pid : Nat) : Option Int :=
  (ps.find? (fun p => p.id = pid)).map (fun p => p.stock)

/-- `update({ stock }).eq('id', item.id)`: set the stock of every row with
the given id. -/
def updateStock (ps : List Product) (pid : Nat) (newStock : Int) : List Product :=
  ps.map (fun p => if p.id = pid then { p with stock := newStock } else p)

/-- One iteration of the stock-update loop: decrement only when the
product exists and its current stock covers the quantity, silently skip
otherwise. -/
def stockStep (ps : List Product) (it : Item) : List Product :=
  match lookupStock ps it.id with
  | some s => if it.quantity ≤ s then updateStock ps it.id (s - it.quantity) else ps
  | Option.none => ps

/-- The full `for (const item of items)` stock-update loop. -/
def applyStockUpdates (ps : List Product) (items : List Item) : List Product :=
  items.foldl stockStep ps

/-- Outcome of the order-creation handler: a 400 with the validation
message, a 500 (an insert error was thrown), or the 201 payload. -/
inductive CreateOrderResult where
  | validationError (msg : String)
  | serverError
  | created (order : Order) (lines : List OrderLine)
deriving Repr, DecidableEq

/-- HTTP status code of an order-creation outcome. -/
def CreateOrderResult.httpStatus : CreateOrderResult → Nat
  | CreateOrderResult.validationError _ => 400
  | CreateOrderResult.serverError => 500
  | CreateOrderResult.created _ _ => 201

/-- The order-creation handler `router.post('/')`: validate, insert the
order row, insert the lines (deleting the order again if that insert
errors), insert the initial history entry (result unchecked in the
source), run the stock-update loop, and answer 201. -/
def createOrder (db : DB) (userId : Nat) (req : OrderRequest) (rand : String)
    (orc : FailureOracle) : CreateOrderResult × DB :=
  match validateOrder req with
  | some msg => (CreateOrderResult.validationError msg, db)
  | Option.none =>
    let items := req.items.getD []
    let sa := (req.shipping_address.getD default)
    if orc.orderInsertFails then (CreateOrderResult.serverError, db)
    else
      let order : Order :=
        { id := db.nextId, user_id := userId,
          order_number := mkOrderNumber db.now rand,
          total_amount := req.total_amount.getD 0,
          status := "pending", payment_status := "completed",
          payment_method := jsStrOr req.payment_method "card",
          shipping_address := formatAddress sa,
          tracking_number := Option.none, notes := Option.none,
          created_at := db.now }
      let db1 : DB :=
        { db with orders := db.orders ++ [order], nextId := db.nextId + 1, now := db.now + 1 }
      let lines := items.map (mkLine order.id)
      if orc.itemsInsertFails then
        (CreateOrderResult.serverError,
         { db1 with orders := db1.orders.filter (fun o => o.id ≠ order.id) })
      else
        let db2 : DB :=
          { db1 with order_items := db1.order_items ++ lines, now := db1.now + 1 }
        let db3 : DB :=
          if orc.historyInsertFails then db2
          else
            { db2 with
              order_status_history := db2.order_status_history ++
                [{ order_id := order.id, status := "pending",
                   comment := some "Order placed successfully",
                   updated_by := Option.none, created_at := db2.now }],
              now := db2.now + 1 }
        let db4 : DB := { db3 with products := applyStockUpdates db3.products items }
        (CreateOrderResult.created order lines, db4)

/-- Ascending-by-creation-time comparison on history entries. -/
def entryLE (a b : HistoryEntry) : Prop :=
  a.created_at ≤ b.created_at

instance : DecidableRel entryLE := fun a b => Nat.decLe a.created_at b.created_at

instance : IsTotal HistoryEntry entryLE :=
  ⟨fun a b => Nat.le_total a.created_at b.created_at⟩

instance : IsTrans HistoryEntry entryLE :=
  ⟨fun _ _ _ hab hbc => Nat.le_trans hab hbc⟩

/-- A history list sorted ascending by creation time. -/
def AscendingByTime (l : List HistoryEntry) : Prop :=
  l.Sorted entryLE

instance (l : List HistoryEntry) : Decidable (AscendingByTime l) :=
  List.decidableSorted l

/-- Outcome of the admin status-transition handler. -/
inductive StatusUpdateResult where
  | validationError (msg : String)
  | notFound
  | ok (order : Order)
deriving Repr, DecidableEq

/-- The `validStatuses` array of the admin route. -/
def validStatuses : List String :=
  ["pending", "processing", "shipped", "delivered", "cancelled"]

/-- The per-order update of the status-transition handler
(`updateData = { status }` plus `tracking_number` only when the supplied
tracking number is truthy). -/
def statusUpd (orderId : Nat) (status : String) (tracking : Option String)
    (o : Order) : Order :=
  if o.id = orderId then
    { o with
      status := status,
      tracking_number := if truthyStr tracking then tracking else o.tracking_number }
  else o

/-- The admin handler `PATCH /orders/:orderId/status`: require a status in
the enum, require the order to exist, update `status` (and
`tracking_number` only when one is supplied and truthy), and append one
history entry attributed to the acting administrator.  The supplied
`status` is `""` when the field is missing (falsy). -/
def updateOrderStatus (db : DB) (orderId : Nat) (status : String)
    (comment : Option String) (tracking : Option String) (adminId : Nat) :
    StatusUpdateResult × DB :=
  if status = "" then (StatusUpdateResult.validationError "Status is required", db)
  else if ¬ validStatuses.contains status then
    (StatusUpdateResult.validationError "Invalid status", db)
  else
    match db.orders.find? (fun o => o.id = orderId) with
    | Option.none => (StatusUpdateResult.notFound, db)
    | some _ =>
      let db1 : DB :=
        { db with orders := db.orders.map (statusUpd orderId status tracking) }
      let db2 : DB :=
        { db1 with
          order_status_history := db1.order_status_history ++
            [{ order_id := orderId, status := status, comment := comment,
               updated_by := some adminId, created_at := db1.now }],
          now := db1.now + 1 }
      match db2.orders.find? (fun o => o.id = orderId) with
      | some updated => (StatusUpdateResult.ok updated, db2)
      | Option.none => (StatusUpdateResult.notFound, db2)

/-- The admin handler `PATCH /orders/:orderId/notes`: overwrite only the
`notes` column of the addressed order. -/
def updateOrderNotes (db : DB) (orderId : Nat) (notes : Option String) : DB :=
  { db with
    orders := db.orders.map (fun o =>
      if o.id = orderId then { o with notes := notes } else o) }

/-- The `order_status_history` rows of one order, in the store's native
order (`filter` keeps the stored row order). -/
def historyFor (db : DB) (orderId : Nat) : List HistoryEntry :=
  db.order_status_history.filter (fun h => h.order_id = orderId)

/-- The nested `order_status_history` select of `GET /my-orders`: the
source applies no `order(...)` to the embedded resource, so the rows come
back in the store's native order. -/
def myOrdersHistory (db : DB) (orderId : Nat) : List HistoryEntry :=
  historyFor db orderId

/-- The nested `order_status_history` select of the admin
`GET /orders/:orderId`: likewise no ordering is applied. -/
def adminOrderHistory (db : DB) (orderId : Nat) : List HistoryEntry :=
  historyFor db orderId

/-- Lower-case fold of one character, as `String.prototype.toLowerCase()`
acts on the ASCII letters compared here; code points outside `A`–`Z` are
left unchanged (the JavaScript method also folds some non-ASCII letters,
which do not occur in these email comparisons). -/
def toLowerChar (c : Char) : Char :=
  if 65 ≤ c.toNat ∧ c.toNat ≤ 90 then Char.ofNat (c.toNat + 32) else c

/-- `email.toLowerCase()` as used by the tracking route. -/
def jsToLowerCase (s : String) : String :=
  String.mk (s.toList.map toLowerChar)

/-- Outcome of the public tracking lookup `GET /track/:orderNumber`:
a 400 when the email query parameter is missing, a 404 when no order
matches the number, a 403 when the order's joined user is null or the
emails differ case-insensitively, else the 200 payload. -/
inductive TrackResult where
  | badRequest
  | notFound
  | forbidden
  | found (order : Order) (lines : List OrderLine) (history : List HistoryEntry)
deriving Repr, DecidableEq

/-- The public tracking route `GET /track/:orderNumber` (tracking
routes, second document of `routes/upload.js`): reject a missing (falsy)
email with a 400; select the order by order number with `.single()`
(404 on error — order numbers are unique, so the first match embeds it);
answer 403 when the joined `order.users` is null or when
`order.users.email.toLowerCase() !== email.toLowerCase()`; otherwise sort
the status history in place by `created_at` ascending and return the
order with its lines and that history.  The route is read-only: it
returns no updated store. -/
def trackOrder (db : DB) (orderNumber : String) (email : Option String) : TrackResult :=
  if truthyStr email = false then TrackResult.badRequest
  else
    match db.orders.find? (fun o => o.order_number = orderNumber) with
    | Option.none => TrackResult.notFound
    | some o =>
      match db.users.find? (fun u => u.id = o.user_id) with
      | Option.none => TrackResult.forbidden
      | some u =>
        if jsToLowerCase u.email = jsToLowerCase (email.getD "") then
          TrackResult.found o
            (db.order_items.filter (fun l => l.order_id = o.id))
            (List.insertionSort entryLE (historyFor db o.id))
        else TrackResult.forbidden

/-- Outcome of `GET /track/:orderNumber/updates`. -/
inductive TrackUpdatesResult where
  | badRequest
  | notFound
  | forbidden
  | ok (updates : List HistoryEntry)
deriving Repr, DecidableEq

/-- The tracking-updates route `GET /track/:orderNumber/updates`
(tracking routes, second document of `routes/upload.js`): same email
guard, order lookup, and ownership check as the tracking route, then the
order's history selected with `order('created_at', ascending)`. -/
def trackOrderUpdates (db : DB) (orderNumber : String) (email : Option String) :
    TrackUpdatesResult :=
  if truthyStr email = false then TrackUpdatesResult.badRequest
  else
    match db.orders.find? (fun o => o.order_number = orderNumber) with
    | Option.none => TrackUpdatesResult.notFound
    | some o =>
      match db.users.find? (fun u => u.id = o.user_id) with
      | Option.none => TrackUpdatesResult.forbidden
      | some u =>
        if jsToLowerCase u.email = jsToLowerCase (email.getD "") then
          TrackUpdatesResult.ok (List.insertionSort entryLE (historyFor db o.id))
        else TrackUpdatesResult.forbidden

/-- Every order row of the store has at least one line row. -/
def OrdersHaveLines (db : DB) : Prop :=
  ∀ o ∈ db.orders, ∃ l ∈ db.order_items, l.order_id = o.id

/-!  Helper lemmas about the stock-update loop.  -/

theorem lookupStock_cons (p : Product) (ps : List Product) (x : Nat) :
    lookupStock (p :: ps) x = if p.id = x then some p.stock else lookupStock ps x := by
  by_cases h : p.id = x <;> simp [lookupStock, List.find?_cons, h]

theorem lookupStock_updateStock (ps : List Product) (pid : Nat) (v : Int) (x : Nat) :
    lookupStock (updateStock ps pid v) x =
      if x = pid then (lookupStock ps x).map (fun _ => v) else lookupStock ps x := by
  induction ps with
  | nil => simp [lookupStock, updateStock]
  | cons p ps ih =>
    have hhead : updateStock (p :: ps) pid v =
        (if p.id = pid then { p with stock := v } else p) :: updateStock ps pid v := rfl
    rw [hhead]
    by_cases hpp : p.id = pid
    · by_cases hx : p.id = x
      · have hp : x = pid := hx.symm.trans hpp
        simp [lookupStock_cons, hpp, hx, hp]
      · have hp : ¬ x = pid := fun e => hx (hpp.trans e.symm)
        have hx2 : ¬ pid = x := fun e => hx (hpp.trans e)
        simp [lookupStock_cons, hpp, hx, hp, hx2, ih]
    · by_cases hx : p.id = x
      · have hp : ¬ x = pid := fun e => hpp (hx.trans e)
        simp [lookupStock_cons, hpp, hx, hp]
      · simp [lookupStock_cons, hpp, hx, ih]

theorem lookupStock_stockStep_ne (ps : List Product) (it : Item) (x : Nat)
    (h : x ≠ it.id) : lookupStock (stockStep ps it) x = lookupStock ps x := by
  cases hl : lookupStock ps it.id with
  | none => simp [stockStep, hl]
  | some s =>
    simp only [stockStep, hl]
    split
    · rw [lookupStock_updateStock, if_neg h]
    · rfl

theorem lookupStock_stockStep_self (ps : List Product) (it : Item) :
    lookupStock (stockStep ps it) it.id =
      (lookupStock ps it.id).map (fun s => if it.quantity ≤ s then s - it.quantity else s) := by
  cases hl : lookupStock ps it.id with
  | none => simp [stockStep, hl]
  | some s =>
    simp only [stockStep, hl]
    by_cases hq : it.quantity ≤ s
    · rw [if_pos hq, lookupStock_updateStock, if_pos rfl, hl]
      simp [hq]
    · rw [if_neg hq, hl]
      simp [hq]

theorem lookupStock_apply_not_mem (items : List Item) (ps : List Product) (x : Nat)
    (h : x ∉ items.map Item.id) :
    lookupStock (applyStockUpdates ps items) x = lookupStock ps x := by
  induction items generalizing ps with
  | nil => rfl
  | cons it rest ih =>
    simp only [List.map_cons, List.mem_cons, not_or] at h
    have hstep : applyStockUpdates ps (it :: rest) = applyStockUpdates (stockStep ps it) rest := rfl
    rw [hstep, ih (stockStep ps it) h.2, lookupStock_stockStep_ne ps it x h.1]

theorem lookupStock_apply_per_line (items : List Item) (ps : List Product)
    (hnd : (items.map Item.id).Nodup) (it : Item) (hit : it ∈ items) :
    lookupStock (applyStockUpdates ps items) it.id =
      (lookupStock ps it.id).map (fun s => if it.quantity ≤ s then s - it.quantity else s) := by
  induction items generalizing ps with
  | nil => cases hit
  | cons hd rest ih =>
    simp only [List.map_cons, List.nodup_cons] at hnd
    have hstep : applyStockUpdates ps (hd :: rest) = applyStockUpdates (stockStep ps hd) rest := rfl
    rw [hstep]
    rcases List.mem_cons.mp hit with heq | hmem
    · subst heq
      rw [lookupStock_apply_not_mem rest (stockStep ps it) it.id hnd.1,
        lookupStock_stockStep_self]
    · have hneq : it.id ≠ hd.id := by
        intro e
        exact hnd.1 (e ▸ List.mem_map_of_mem Item.id hmem)
      rw [ih (stockStep ps hd) hnd.2 hmem, lookupStock_stockStep_ne ps hd it.id hneq]

theorem stockStep_nonneg (ps : List Product) (it : Item)
    (h : ∀ p ∈ ps, 0 ≤ p.stock) : ∀ p ∈ stockStep ps it, 0 ≤ p.stock := by
  unfold stockStep
  cases hl : lookupStock ps it.id with
  | none => exact h
  | some s =>
    dsimp only
    by_cases hq : it.quantity ≤ s
    · rw [if_pos hq]
      intro p hp
      rcases List.mem_map.mp hp with ⟨q, hq2, rfl⟩
      by_cases hid : q.id = it.id
      · simp only [hid, if_pos rfl]
        exact Int.sub_nonneg.mpr hq
      · simp only [hid, if_neg hid]
        exact h q hq2
    · rw [if_neg hq]
      exact h

theorem applyStockUpdates_nonneg (items : List Item) (ps : List Product)
    (h : ∀ p ∈ ps, 0 ≤ p.stock) : ∀ p ∈ applyStockUpdates ps items, 0 ≤ p.stock := by
  induction items generalizing ps with
  | nil => exact h
  | cons it rest ih => exact ih (stockStep ps it) (stockStep_nonneg ps it h)

/-!  Inversion lemmas for validation and the creation handler.  -/

theorem validateOrder_none_inv {req : OrderRequest} (h : validateOrder req = Option.none) :
    ∃ items sa t, req.items = some items ∧ items ≠ [] ∧
      req.shipping_address = some sa ∧
      sa.address ≠ "" ∧ sa.city ≠ "" ∧ sa.state ≠ "" ∧ sa.zipCode ≠ "" ∧
      sa.country ≠ "" ∧ sa.phoneCode ≠ "" ∧ sa.phone ≠ "" ∧
      req.total_amount = some t ∧ 0 < t := by
  unfold validateOrder at h
  split at h
  · exact absurd h (by simp)
  rename_i items hitems
  by_cases he : items.isEmpty
  · rw [if_pos he] at h; exact absurd h (by simp)
  rw [if_neg he] at h
  have hemp : items ≠ [] := fun hl => he (by simp [hl])
  revert h
  split
  · intro h; exact absurd h (by simp)
  rename_i sa hsa
  intro h
  by_cases ha : sa.address = "" ∨ sa.city = "" ∨ sa.state = "" ∨ sa.zipCode = ""
  · rw [if_pos ha] at h; exact absurd h (by simp)
  rw [if_neg ha] at h
  by_cases hc : sa.country = ""
  · rw [if_pos hc] at h; exact absurd h (by simp)
  rw [if_neg hc] at h
  by_cases hph : sa.phoneCode = "" ∨ sa.phone = ""
  · rw [if_pos hph] at h; exact absurd h (by simp)
  rw [if_neg hph] at h
  revert h
  split
  · intro h; exact absurd h (by simp)
  rename_i t hta
  intro h
  by_cases ht : t ≤ 0
  · rw [if_pos ht] at h; exact absurd h (by simp)
  push_neg at ha hph ht
  exact ⟨items, sa, t, hitems, hemp, hsa, ha.1, ha.2.1, ha.2.2.1, ha.2.2.2,
    hc, hph.1, hph.2, hta, ht⟩

/-- The order row the success path of `createOrder` inserts. -/
def createdOrderRow (db : DB) (userId : Nat) (req : OrderRequest) (rand : String) : Order :=
  { id := db.nextId, user_id := userId,
    order_number := mkOrderNumber db.now rand,
    total_amount := req.total_amount.getD 0,
    status := "pending", payment_status := "completed",
    payment_method := jsStrOr req.payment_method "card",
    shipping_address := formatAddress (req.shipping_address.getD default),
    tracking_number := Option.none, notes := Option.none,
    created_at := db.now }

/-- The store state after the success path of `createOrder`
(`histFails` records whether the unchecked history insert errored). -/
def createOrderSuccessDB (db : DB) (userId : Nat) (req : OrderRequest) (rand : String)
    (histFails : Bool) : DB :=
  { orders := db.orders ++ [createdOrderRow db userId req rand],
    order_items := db.order_items ++ (req.items.getD []).map (mkLine db.nextId),
    order_status_history :=
      if histFails then db.order_status_history
      else db.order_status_history ++
        [{ order_id := db.nextId, status := "pending",
           comment := some "Order placed successfully",
           updated_by := Option.none, created_at := db.now + 2 }],
    products := applyStockUpdates db.products (req.items.getD []),
    users := db.users,
    nextId := db.nextId + 1,
    now := if histFails then db.now + 2 else db.now + 3 }

theorem createOrder_success_run (db : DB) (userId : Nat) (req : OrderRequest) (rand : String)
    (orc : FailureOracle) (hv : validateOrder req = Option.none)
    (h1 : orc.orderInsertFails = false) (h2 : orc.itemsInsertFails = false) :
    createOrder db userId req rand orc =
      (CreateOrderResult.created (createdOrderRow db userId req rand)
        ((req.items.getD []).map (mkLine db.nextId)),
       createOrderSuccessDB db userId req rand orc.historyInsertFails) := by
  cases orc with
  | mk of itf hf =>
    simp only at h1 h2
    subst h1
    subst h2
    cases hf <;>
      simp [createOrder, hv, createdOrderRow, createOrderSuccessDB]

theorem createOrder_created_inv {db : DB} {userId : Nat} {req : OrderRequest} {rand : String}
    {orc : FailureOracle} {o : Order} {lines : List OrderLine} {db1 : DB}
    (h : createOrder db userId req rand orc = (CreateOrderResult.created o lines, db1)) :
    validateOrder req = Option.none ∧ orc.orderInsertFails = false ∧
      orc.itemsInsertFails = false ∧
      o = createdOrderRow db userId req rand ∧
      lines = (req.items.getD []).map (mkLine db.nextId) ∧
      db1 = createOrderSuccessDB db userId req rand orc.historyInsertFails := by
  cases hv : validateOrder req with
  | some msg =>
    simp only [createOrder, hv] at h
    exact absurd h (by simp)
  | none =>
    cases horder : orc.orderInsertFails with
    | true =>
      simp only [createOrder, hv, horder] at h
      exact absurd h (by simp)
    | false =>
      cases hitems : orc.itemsInsertFails with
      | true =>
        simp only [createOrder, hv, horder, hitems] at h
        exact absurd h (by simp)
      | false =>
        rw [createOrder_success_run db userId req rand orc hv horder hitems] at h
        rw [Prod.mk.injEq] at h
        obtain ⟨hfst, hsnd⟩ := h
        rw [CreateOrderResult.created.injEq] at hfst
        exact ⟨rfl, rfl, rfl, hfst.1.symm, hfst.2.symm, hsnd.symm⟩

theorem mkOrderNumber_ne_empty (clock : Nat) (rand : String) :
    mkOrderNumber clock rand ≠ "" := by
  intro h
  have hlen := congrArg String.length h
  rw [mkOrderNumber, String.length_append, String.length_append, String.length_append] at hlen
  have h4 : ("ORD-" : String).length = 4 := rfl
  have h0 : ("" : String).length = 0 := rfl
  omega

/-- C1: a validated order-creation request succeeds with HTTP 201 and an
order carrying a non-empty order number, status `"pending"`,
payment status `"completed"`, the supplied total amount, and exactly one
order line per input item, each line copying the item's product id, name,
quantity, and its price parsed numerically (a leading `'$'` stripped when
the price comes as a formatted string). -/
theorem order_creation_valid_returns_created (db : DB) (userId : Nat) (req : OrderRequest)
    (rand : String) (hv : validateOrder req = Option.none) :
    ∃ o lines,
      (createOrder db userId req rand FailureOracle.none).1 =
        CreateOrderResult.created o lines ∧
      (createOrder db userId req rand FailureOracle.none).1.httpStatus = 201 ∧
      o.order_number ≠ "" ∧
      o.status = "pending" ∧
      o.payment_status = "completed" ∧
      (∀ t, req.total_amount = some t → o.total_amount = t) ∧
      lines.length = (req.items.getD []).length ∧
      (∀ i : Nat,
        (lines[i]?).map OrderLine.product_id = ((req.items.getD [])[i]?).map Item.id ∧
        (lines[i]?).map OrderLine.product_name = ((req.items.getD [])[i]?).map Item.name ∧
        (lines[i]?).map OrderLine.quantity = ((req.items.getD [])[i]?).map Item.quantity ∧
        (lines[i]?).map OrderLine.price =
          ((req.items.getD [])[i]?).map (fun it => parseItemPrice it.price)) := by
  rw [createOrder_success_run db userId req rand FailureOracle.none hv rfl rfl]
  refine ⟨_, _, rfl, rfl, mkOrderNumber_ne_empty db.now rand, rfl, rfl, ?_, ?_, ?_⟩
  · intro t ht
    simp [createdOrderRow, ht]
  · simp
  · intro i
    refine ⟨?_, ?_, ?_, ?_⟩ <;>
      · rw [List.getElem?_map]
        cases (req.items.getD [])[i]? <;> simp [mkLine]

/-- The invalid-input conditions exactly as claim C7 words them. -/
def claimInvalidInput (req : OrderRequest) : Prop :=
  req.items = Option.none ∨ req.items = some [] ∨
  req.shipping_address = Option.none ∨
  (∃ sa, req.shipping_address = some sa ∧
    (sa.address = "" ∨ sa.city = "" ∨ sa.state = "" ∨ sa.zipCode = "" ∨
     sa.country = "" ∨ sa.phoneCode = "" ∨ sa.phone = "")) ∨
  req.total_amount = Option.none ∨
  (∃ t, req.total_amount = some t ∧ t ≤ 0)

/-- C7: whenever the item list is missing or empty, the shipping address
is missing or lacks a required field, country or phone data is missing,
or the total amount is missing or not strictly positive, order creation
fails with a validation error and the store is left exactly as it was
(no order, line, or history row, and no stock change). -/
theorem order_creation_validation_rejects (db : DB) (userId : Nat) (req : OrderRequest)
    (rand : String) (orc : FailureOracle) (hinv : claimInvalidInput req) :
    ∃ msg, createOrder db userId req rand orc =
      (CreateOrderResult.validationError msg, db) := by
  cases hveq : validateOrder req with
  | some msg => exact ⟨msg, by simp [createOrder, hveq]⟩
  | none =>
    exfalso
    obtain ⟨items, sa, t, hitems, hemp, hsa, ha1, ha2, ha3, ha4, hc, hp1, hp2, hta, ht⟩ :=
      validateOrder_none_inv hveq
    rcases hinv with h | h | h | ⟨sa2, hsa2, hbad⟩ | h | ⟨t2, hta2, ht2⟩
    · rw [hitems] at h; cases h
    · rw [hitems] at h
      injection h with h
      exact hemp h
    · rw [hsa] at h; cases h
    · rw [hsa] at hsa2
      injection hsa2 with e
      subst e
      rcases hbad with e | e | e | e | e | e | e
      · exact ha1 e
      · exact ha2 e
      · exact ha3 e
      · exact ha4 e
      · exact hc e
      · exact hp1 e
      · exact hp2 e
    · rw [hta] at h; cases h
    · rw [hta] at hta2
      injection hta2 with e
      subst e
      exact absurd ht (not_lt.mpr ht2)

/-- C10: the `subtotal`, `shipping_cost`, and `tax` fields of the request
have no influence: a request differing only in those three fields
validates identically and produces the identical outcome and store state. -/
theorem fee_fields_no_influence (db : DB) (userId : Nat) (req : OrderRequest)
    (rand : String) (orc : FailureOracle) (s sc t : Option ℚ) :
    validateOrder { req with subtotal := s, shipping_cost := sc, tax := t } =
      validateOrder req ∧
    createOrder db userId { req with subtotal := s, shipping_cost := sc, tax := t } rand orc =
      createOrder db userId req rand orc := by
  exact ⟨rfl, rfl⟩

/-- True exactly on the 201 outcome of order creation. -/
def CreateOrderResult.isSuccess : CreateOrderResult → Bool
  | CreateOrderResult.created _ _ => true
  | _ => false

theorem createOrder_validation_run (db : DB) (userId : Nat) (req : OrderRequest)
    (rand : String) (orc : FailureOracle) {msg : String}
    (hv : validateOrder req = some msg) :
    createOrder db userId req rand orc = (CreateOrderResult.validationError msg, db) := by
  simp [createOrder, hv]

theorem createOrder_orderfail_run (db : DB) (userId : Nat) (req : OrderRequest)
    (rand : String) (orc : FailureOracle) (hv : validateOrder req = Option.none)
    (h1 : orc.orderInsertFails = true) :
    createOrder db userId req rand orc = (CreateOrderResult.serverError, db) := by
  cases orc with
  | mk of itf hf =>
    simp only at h1
    subst h1
    simp [createOrder, hv]

theorem createOrder_rollback_run (db : DB) (userId : Nat) (req : OrderRequest)
    (rand : String) (orc : FailureOracle) (hv : validateOrder req = Option.none)
    (h1 : orc.orderInsertFails = false) (h2 : orc.itemsInsertFails = true) :
    createOrder db userId req rand orc =
      (CreateOrderResult.serverError,
       { db with
         orders := (db.orders ++ [createdOrderRow db userId req rand]).filter
           (fun o => o.id ≠ db.nextId),
         nextId := db.nextId + 1, now := db.now + 1 }) := by
  cases orc with
  | mk of itf hf =>
    simp only at h1 h2
    subst h1
    subst h2
    simp [createOrder, hv, createdOrderRow]

/-- C2: in an order creation that succeeds, each line item's referenced
product ends with stock equal to prior stock minus the line quantity when
prior stock covered the quantity, and with unchanged stock otherwise
(silent skip); consequently a creation never drives any non-negative
stock below zero.  The items are assumed to reference pairwise-distinct
products, as one order line per product. -/
theorem order_creation_stock_decrement (db : DB) (userId : Nat) (req : OrderRequest)
    (rand : String) (orc : FailureOracle)
    (hs : (createOrder db userId req rand orc).1.isSuccess = true)
    (hnd : ((req.items.getD []).map Item.id).Nodup) :
    (∀ it ∈ req.items.getD [],
      lookupStock (createOrder db userId req rand orc).2.products it.id =
        (lookupStock db.products it.id).map
          (fun s => if it.quantity ≤ s then s - it.quantity else s)) ∧
    ((∀ p ∈ db.products, 0 ≤ p.stock) →
      ∀ p ∈ (createOrder db userId req rand orc).2.products, 0 ≤ p.stock) := by
  rcases hrun : createOrder db userId req rand orc with ⟨r, db1⟩
  rcases r with msg | - | ⟨o, lines⟩
  · rw [hrun] at hs
    exact Bool.noConfusion hs
  · rw [hrun] at hs
    exact Bool.noConfusion hs
  obtain ⟨-, -, -, -, -, hdb⟩ := createOrder_created_inv hrun
  subst hdb
  constructor
  · intro it hit
    exact lookupStock_apply_per_line (req.items.getD []) db.products hnd it hit
  · intro hpos
    exact applyStockUpdates_nonneg (req.items.getD []) db.products hpos

/-- C3: when the line insert fails after the order row was inserted, the
order row is deleted again and the request fails with a 500; and across
every outcome of order creation (success, validation failure, or an
insert failure), a store in which every order has at least one line still
has that property afterwards — no order exists without its lines. -/
theorem order_creation_rollback_on_line_failure (db : DB) (userId : Nat)
    (req : OrderRequest) (rand : String)
    (hfresh : ∀ o ∈ db.orders, o.id ≠ db.nextId) :
    (∀ orc : FailureOracle, validateOrder req = Option.none →
      orc.orderInsertFails = false → orc.itemsInsertFails = true →
      (createOrder db userId req rand orc).1 = CreateOrderResult.serverError ∧
      (createOrder db userId req rand orc).2.orders = db.orders ∧
      (createOrder db userId req rand orc).2.order_items = db.order_items ∧
      (createOrder db userId req rand orc).2.order_status_history =
        db.order_status_history) ∧
    (∀ orc : FailureOracle, OrdersHaveLines db →
      OrdersHaveLines (createOrder db userId req rand orc).2) := by
  have hfilter : (db.orders ++ [createdOrderRow db userId req rand]).filter
      (fun o => o.id ≠ db.nextId) = db.orders := by
    rw [List.filter_append]
    have h1 : db.orders.filter (fun o => o.id ≠ db.nextId) = db.orders := by
      rw [List.filter_eq_self]
      intro o ho
      exact decide_eq_true (hfresh o ho)
    have h2 : [createdOrderRow db userId req rand].filter
        (fun o => o.id ≠ db.nextId) = [] := by
      simp [createdOrderRow]
    rw [h1, h2, List.append_nil]
  constructor
  · intro orc hv h1 h2
    rw [createOrder_rollback_run db userId req rand orc hv h1 h2]
    exact ⟨rfl, hfilter, rfl, rfl⟩
  · intro orc hlines
    cases hveq : validateOrder req with
    | some msg =>
      rw [createOrder_validation_run db userId req rand orc hveq]
      exact hlines
    | none =>
      cases horder : orc.orderInsertFails with
      | true =>
        rw [createOrder_orderfail_run db userId req rand orc hveq horder]
        exact hlines
      | false =>
        cases hitf : orc.itemsInsertFails with
        | true =>
          rw [createOrder_rollback_run db userId req rand orc hveq horder hitf]
          intro o ho
          rw [show ({ db with
              orders := (db.orders ++ [createdOrderRow db userId req rand]).filter
                (fun o => o.id ≠ db.nextId),
              nextId := db.nextId + 1, now := db.now + 1 } : DB).orders = _ from rfl,
            hfilter] at ho
          exact hlines o ho
        | false =>
          rw [createOrder_success_run db userId req rand orc hveq horder hitf]
          intro o ho
          simp only [createOrderSuccessDB] at ho ⊢
          rcases List.mem_append.mp ho with hold | hnew
          · obtain ⟨l, hl, hlid⟩ := hlines o hold
            exact ⟨l, List.mem_append_left _ hl, hlid⟩
          · obtain ⟨items, sa, t, hitems, hemp, -⟩ := validateOrder_none_inv hveq
            rcases List.mem_singleton.mp hnew with rfl
            obtain ⟨it0, rest, hcons⟩ := List.exists_cons_of_ne_nil hemp
            refine ⟨mkLine db.nextId it0, ?_, rfl⟩
            apply List.mem_append_right
            rw [hitems]
            simp only [Option.getD, hcons]
            exact List.mem_map_of_mem _ (List.mem_cons_self it0 rest)

/-- A complete shipping address used in concrete test runs. -/
def saW : ShippingAddress :=
  { address := "1 Main St", city := "Accra", state := "GA", zipCode := "00233",
    country := "GH", phoneCode := "+233", phone := "5550001",
    email := some "Bob@example.com", fullName := some "Bob" }

/-- A concrete request item whose price is a formatted string. -/
def itemW7 : Item :=
  { id := 7, name := "Hoodie", price := PriceVal.pstr "$10.00", quantity := 1 }

/-- A concrete request item whose quantity exceeds the available stock. -/
def itemW8 : Item :=
  { id := 8, name := "Cap", price := PriceVal.pnum 5, quantity := 2 }

/-- A valid two-item creation request used in concrete test runs. -/
def reqW : OrderRequest :=
  { items := some [itemW7, itemW8],
    shipping_address := some saW,
    total_amount := some 20 }

/-- A small store used in concrete test runs: two products (one with
ample stock, one with insufficient stock) and one user. -/
def dbW : DB :=
  { orders := [], order_items := [], order_status_history := [],
    products := [{ id := 7, stock := 5 }, { id := 8, stock := 1 }],
    users := [{ id := 3, email := "bob@Example.com" }],
    nextId := 100, now := 50 }

/-- C4, counterexample: a creation run in which the (unchecked) history
insert fails still returns the 201 success outcome, yet the new order has
no status-history entry at all — the seeding is not atomic with the order
and a successful creation can exist with zero history entries. -/
theorem order_creation_history_seed_counterexample :
    ((createOrder dbW 3 reqW "R1"
        { orderInsertFails := false, itemsInsertFails := false,
          historyInsertFails := true }).1.isSuccess = true) ∧
    historyFor (createOrder dbW 3 reqW "R1"
        { orderInsertFails := false, itemsInsertFails := false,
          historyInsertFails := true }).2 100 = [] := by
  decide

/-- C4, amended: a creation that returns success and in which the history
insert did not fail seeds exactly one StatusHistoryEntry for the new
order — status `"pending"`, the system comment, `updated_by` null — and
it is the only (hence first) entry for that order; the seeding is not
atomic with the order, as a failed history insert still returns success
(see the counterexample). -/
theorem order_creation_history_seed_amended (db : DB) (userId : Nat) (req : OrderRequest)
    (rand : String) (orc : FailureOracle)
    (hs : (createOrder db userId req rand orc).1.isSuccess = true)
    (hh : orc.historyInsertFails = false)
    (hfresh : ∀ e ∈ db.order_status_history, e.order_id ≠ db.nextId) :
    ∃ o lines,
      (createOrder db userId req rand orc).1 = CreateOrderResult.created o lines ∧
      historyFor (createOrder db userId req rand orc).2 o.id =
        [{ order_id := o.id, status := "pending",
           comment := some "Order placed successfully",
           updated_by := Option.none, created_at := db.now + 2 }] := by
  rcases hrun : createOrder db userId req rand orc with ⟨r, db1⟩
  rcases r with msg | - | ⟨o, lines⟩
  · rw [hrun] at hs
    exact Bool.noConfusion hs
  · rw [hrun] at hs
    exact Bool.noConfusion hs
  obtain ⟨-, -, -, ho, -, hdb⟩ := createOrder_created_inv hrun
  subst hdb
  refine ⟨o, lines, rfl, ?_⟩
  have hoid : o.id = db.nextId := by rw [ho]; rfl
  rw [hoid]
  simp only [historyFor, createOrderSuccessDB, hh]
  rw [if_neg (by simp)]
  rw [List.filter_append]
  have h1 : db.order_status_history.filter (fun h => h.order_id = db.nextId) = [] := by
    rw [List.filter_eq_nil_iff]
    intro e he
    simp [hfresh e he]
  rw [h1]
  simp

theorem find?_id_map (l : List Order) (f : Order → Order)
    (hid : ∀ o, (f o).id = o.id) (oid : Nat) :
    (l.map f).find? (fun o => o.id = oid) =
      (l.find? (fun o => o.id = oid)).map f := by
  induction l with
  | nil => rfl
  | cons a l ih =>
    by_cases h : a.id = oid
    · simp [List.find?_cons, hid, h]
    · simp [List.find?_cons, hid, h, ih]

theorem updateOrderStatus_found (db : DB) (orderId : Nat) (status : String)
    (comment tracking : Option String) (adminId : Nat) (o0 : Order)
    (h0 : status ≠ "") (hc : validStatuses.contains status = true)
    (hfind : db.orders.find? (fun o => o.id = orderId) = some o0) :
    updateOrderStatus db orderId status comment tracking adminId =
      (StatusUpdateResult.ok (statusUpd orderId status tracking o0),
       { db with
         orders := db.orders.map (statusUpd orderId status tracking),
         order_status_history := db.order_status_history ++
           [{ order_id := orderId, status := status, comment := comment,
              updated_by := some adminId, created_at := db.now }],
         now := db.now + 1 }) := by
  have hid : ∀ o : Order, (statusUpd orderId status tracking o).id = o.id := by
    intro o
    by_cases h : o.id = orderId <;> simp [statusUpd, h]
  have hfind2 : (db.orders.map (statusUpd orderId status tracking)).find?
      (fun o => o.id = orderId) = some (statusUpd orderId status tracking o0) := by
    rw [find?_id_map _ _ hid, hfind]
    rfl
  have hmem : status ∈ validStatuses := List.elem_iff.mp hc
  simp [updateOrderStatus, h0, hc, hmem, hfind, hfind2]

/-- C5: the administrative status transition rejects a status outside the
enum with a validation error, reports not-found for a non-existent order
(when the status is valid — the source checks the status first), and
otherwise answers with the order whose status is the new status, whose
tracking number is the supplied one exactly when one is supplied (truthy)
and is untouched otherwise, and appends exactly one history entry
carrying the new status, the comment, and the acting administrator. -/
theorem admin_status_transition_contract (db : DB) (orderId : Nat) (status : String)
    (comment tracking : Option String) (adminId : Nat) :
    (status ∉ validStatuses →
      ∃ msg, updateOrderStatus db orderId status comment tracking adminId =
        (StatusUpdateResult.validationError msg, db)) ∧
    (status ∈ validStatuses →
      db.orders.find? (fun o => o.id = orderId) = Option.none →
      updateOrderStatus db orderId status comment tracking adminId =
        (StatusUpdateResult.notFound, db)) ∧
    (∀ o0, status ∈ validStatuses →
      db.orders.find? (fun o => o.id = orderId) = some o0 →
      ∃ o1,
        (updateOrderStatus db orderId status comment tracking adminId).1 =
          StatusUpdateResult.ok o1 ∧
        o1.status = status ∧
        o1.id = o0.id ∧
        (truthyStr tracking = true → o1.tracking_number = tracking) ∧
        (truthyStr tracking = false → o1.tracking_number = o0.tracking_number) ∧
        (updateOrderStatus db orderId status comment tracking adminId).2.order_status_history =
          db.order_status_history ++
            [{ order_id := orderId, status := status, comment := comment,
               updated_by := some adminId, created_at := db.now }]) := by
  refine ⟨?_, ?_, ?_⟩
  · intro hnot
    by_cases h0 : status = ""
    · exact ⟨"Status is required", by simp [updateOrderStatus, h0]⟩
    · exact ⟨"Invalid status", by simp [updateOrderStatus, h0, hnot]⟩
  · intro hmem hfind
    have h0 : status ≠ "" := by
      intro e
      subst e
      simp [validStatuses] at hmem
    simp [updateOrderStatus, h0, hmem, hfind]
  · intro o0 hmem hfind
    have h0 : status ≠ "" := by
      intro e
      subst e
      simp [validStatuses] at hmem
    have hc : validStatuses.contains status = true := List.elem_iff.mpr hmem
    have ho0 : o0.id = orderId := by
      have := List.find?_some hfind
      simpa using this
    rw [updateOrderStatus_found db orderId status comment tracking adminId o0 h0 hc hfind]
    refine ⟨statusUpd orderId status tracking o0, rfl, ?_, ?_, ?_, ?_, rfl⟩
    · simp [statusUpd, ho0]
    · by_cases h : o0.id = orderId <;> simp [statusUpd, h]
    · intro htr
      simp [statusUpd, ho0, htr]
    · intro htr
      simp [statusUpd, ho0, htr]

/-- A store whose native row order for one order's history is not
ascending by creation time (the later `"shipped"` entry is stored before
the earlier `"pending"` entry). -/
def dbUnsorted : DB :=
  { orders := [], order_items := [],
    order_status_history :=
      [{ order_id := 1, status := "shipped", comment := Option.none,
         updated_by := some 9, created_at := 5 },
       { order_id := 1, status := "pending", comment := Option.none,
         updated_by := Option.none, created_at := 3 }],
    products := [], users := [], nextId := 2, now := 6 }

/-- C6, counterexample: the `GET /my-orders` nested history select applies
no ordering, so on a store whose native order is not ascending the
returned history is exactly the native order and is not ascending by
creation time — contradicting the claim that every fetch returns history
sorted ascending regardless of the store's native ordering. -/
theorem history_sort_counterexample :
    myOrdersHistory dbUnsorted 1 = dbUnsorted.order_status_history ∧
    ¬ AscendingByTime (myOrdersHistory dbUnsorted 1) := by
  constructor
  · decide
  · decide

/-- C6, amended: only the tracking routes return the status history
sorted ascending by creation time (the tracking lookup sorts the nested
history in JavaScript before responding, and the updates route selects
it with an ascending order clause); the order queries (`GET /my-orders`
and the admin `GET /orders/:orderId`) apply no ordering to the nested
history select and return the entries of the addressed order in the
store's native row order (a sublist of the stored table, order
preserved). -/
theorem history_sort_amended :
    (∀ (db : DB) (orderNumber : String) (email : Option String) (o : Order)
        (lines : List OrderLine) (hist : List HistoryEntry),
        trackOrder db orderNumber email = TrackResult.found o lines hist →
        AscendingByTime hist) ∧
    (∀ (db : DB) (orderNumber : String) (email : Option String)
        (ups : List HistoryEntry),
        trackOrderUpdates db orderNumber email = TrackUpdatesResult.ok ups →
        AscendingByTime ups) ∧
    (∀ (db : DB) (orderId : Nat),
      (myOrdersHistory db orderId).Sublist db.order_status_history ∧
      (adminOrderHistory db orderId).Sublist db.order_status_history) := by
  refine ⟨?_, ?_, ?_⟩
  · intro db orderNumber email o lines hist h
    unfold trackOrder at h
    split at h
    · cases h
    split at h
    · cases h
    split at h
    · cases h
    split at h
    · rw [TrackResult.found.injEq] at h
      rw [← h.2.2]
      exact List.sorted_insertionSort entryLE _
    · cases h
  · intro db orderNumber email ups h
    unfold trackOrderUpdates at h
    split at h
    · cases h
    split at h
    · cases h
    split at h
    · cases h
    split at h
    · rw [TrackUpdatesResult.ok.injEq] at h
      rw [← h]
      exact List.sorted_insertionSort entryLE _
    · cases h
  · intro db orderId
    exact ⟨List.filter_sublist _, List.filter_sublist _⟩

/-- C8: for a tracking lookup carrying an email, the route answers
not-found when no order carries the supplied order number; when an order
matches but the supplied email does not equal the owning user's email
case-insensitively — or the order has no joined user at all — it answers
forbidden and returns no order data; and only on a case-insensitive
match does it return the order together with its lines and its history
sorted ascending by creation time.  The lookup is read-only by
construction: `trackOrder` returns no updated store. -/
theorem tracking_lookup_contract (db : DB) (orderNumber email : String)
    (hem : email ≠ "") :
    ((∀ o ∈ db.orders, o.order_number ≠ orderNumber) →
      trackOrder db orderNumber (some email) = TrackResult.notFound) ∧
    (∀ o, db.orders.find? (fun x => x.order_number = orderNumber) = some o →
      db.users.find? (fun x => x.id = o.user_id) = Option.none →
      trackOrder db orderNumber (some email) = TrackResult.forbidden) ∧
    (∀ o, db.orders.find? (fun x => x.order_number = orderNumber) = some o →
      ∀ u, db.users.find? (fun x => x.id = o.user_id) = some u →
      (jsToLowerCase u.email ≠ jsToLowerCase email →
        trackOrder db orderNumber (some email) = TrackResult.forbidden) ∧
      (jsToLowerCase u.email = jsToLowerCase email →
        ∃ hist,
          trackOrder db orderNumber (some email) =
            TrackResult.found o (db.order_items.filter (fun l => l.order_id = o.id)) hist ∧
          AscendingByTime hist)) := by
  have htr : truthyStr (some email) = true := by simp [truthyStr, hem]
  refine ⟨?_, ?_, ?_⟩
  · intro hnone
    have hfind : db.orders.find? (fun x => x.order_number = orderNumber) = Option.none := by
      rw [List.find?_eq_none]
      intro o ho
      simpa using hnone o ho
    simp [trackOrder, htr, hfind]
  · intro o hfind hu
    simp [trackOrder, htr, hfind, hu]
  · intro o hfind u hu
    constructor
    · intro hne
      simp [trackOrder, htr, hfind, hu, hne]
    · intro heq
      exact ⟨List.insertionSort entryLE (historyFor db o.id),
        by simp [trackOrder, htr, hfind, hu, heq],
        List.sorted_insertionSort entryLE _⟩

/-- The order columns no post-creation operation may change: id, owner,
order number, total amount, payment status and method, shipping address,
and creation time. -/
def orderFixedCore (o : Order) :
    Nat × Nat × String × ℚ × String × String × FormattedAddress × Nat :=
  (o.id, o.user_id, o.order_number, o.total_amount, o.payment_status,
   o.payment_method, o.shipping_address, o.created_at)

theorem updateOrderStatus_frame_shape (db : DB) (orderId : Nat) (status : String)
    (comment tracking : Option String) (adminId : Nat) :
    ((updateOrderStatus db orderId status comment tracking adminId).2.orders = db.orders ∨
     (updateOrderStatus db orderId status comment tracking adminId).2.orders =
       db.orders.map (statusUpd orderId status tracking)) ∧
    (updateOrderStatus db orderId status comment tracking adminId).2.order_items =
      db.order_items := by
  by_cases h0 : status = ""
  · constructor
    · left
      simp [updateOrderStatus, h0]
    · simp [updateOrderStatus, h0]
  by_cases hmem : status ∈ validStatuses
  · cases hfind : db.orders.find? (fun o => o.id = orderId) with
    | none =>
      constructor
      · left
        simp [updateOrderStatus, h0, hmem, hfind]
      · simp [updateOrderStatus, h0, hmem, hfind]
    | some o0 =>
      rw [updateOrderStatus_found db orderId status comment tracking adminId o0 h0
        (List.elem_iff.mpr hmem) hfind]
      exact ⟨Or.inr rfl, rfl⟩
  · constructor
    · left
      simp [updateOrderStatus, h0, hmem]
    · simp [updateOrderStatus, h0, hmem]

/-- C9: after creation, the status-transition operation may change only an
order's `status` and `tracking_number` (and the latter only when a truthy
tracking number is supplied — otherwise every stored tracking number,
including the addressed order's, is untouched), the notes operation may
change only `notes`, and neither operation touches the order lines or any
other order column (id, owner, order number, total amount, payment
fields, shipping address, creation time). -/
theorem post_creation_mutation_frame (db : DB) (orderId : Nat) (status : String)
    (comment tracking : Option String) (adminId : Nat) (notes : Option String) :
    ((updateOrderStatus db orderId status comment tracking adminId).2.orders.map
        (fun o => (orderFixedCore o, o.notes)) =
      db.orders.map (fun o => (orderFixedCore o, o.notes))) ∧
    ((updateOrderStatus db orderId status comment tracking adminId).2.order_items =
      db.order_items) ∧
    (truthyStr tracking = false →
      (updateOrderStatus db orderId status comment tracking adminId).2.orders.map
          Order.tracking_number =
        db.orders.map Order.tracking_number) ∧
    ((updateOrderNotes db orderId notes).orders.map
        (fun o => (orderFixedCore o, o.status, o.tracking_number)) =
      db.orders.map (fun o => (orderFixedCore o, o.status, o.tracking_number))) ∧
    ((updateOrderNotes db orderId notes).order_items = db.order_items) := by
  obtain ⟨hord, hitems⟩ :=
    updateOrderStatus_frame_shape db orderId status comment tracking adminId
  refine ⟨?_, hitems, ?_, ?_, rfl⟩
  · rcases hord with h | h
    · rw [h]
    · rw [h, List.map_map]
      have hfun : ((fun o => (orderFixedCore o, o.notes)) ∘ statusUpd orderId status tracking)
          = fun o : Order => (orderFixedCore o, o.notes) := by
        funext o
        by_cases hid : o.id = orderId <;> simp [statusUpd, hid, orderFixedCore]
      rw [hfun]
  · intro htr
    rcases hord with h | h
    · rw [h]
    · rw [h, List.map_map]
      have hfun : (Order.tracking_number ∘ statusUpd orderId status tracking)
          = Order.tracking_number := by
        funext o
        by_cases hid : o.id = orderId <;> simp [statusUpd, hid, htr]
      rw [hfun]
  · rw [show (updateOrderNotes db orderId notes).orders =
        db.orders.map (fun o => if o.id = orderId then { o with notes := notes } else o)
      from rfl]
    rw [List.map_map]
    have hfun : ((fun o : Order => (orderFixedCore o, o.status, o.tracking_number)) ∘
        (fun o : Order => if o.id = orderId then { o with notes := notes } else o))
        = fun o : Order => (orderFixedCore o, o.status, o.tracking_number) := by
      funext o
      by_cases hid : o.id = orderId <;> simp [hid, orderFixedCore]
    rw [hfun]

/-!  Concrete data for the witness runs.  -/

/-- A persisted pending order used in concrete transition runs. -/
def orderS : Order :=
  { id := 1, user_id := 3, order_number := "ORD-100-A", total_amount := 20,
    status := "pending", payment_status := "completed", payment_method := "card",
    shipping_address := formatAddress saW, tracking_number := Option.none,
    notes := Option.none, created_at := 10 }

/-- A store holding `orderS` with its initial history entry. -/
def dbS : DB :=
  { orders := [orderS], order_items := [],
    order_status_history :=
      [{ order_id := 1, status := "pending", comment := some "Order placed successfully",
         updated_by := Option.none, created_at := 10 }],
    products := [], users := [{ id := 3, email := "bob@Example.com" }],
    nextId := 2, now := 11 }

/-- A store holding `orderS` with an out-of-order history, for the
tracking-lookup runs. -/
def dbT : DB :=
  { orders := [orderS], order_items := [],
    order_status_history :=
      [{ order_id := 1, status := "shipped", comment := Option.none,
         updated_by := some 9, created_at := 5 },
       { order_id := 1, status := "pending", comment := Option.none,
         updated_by := Option.none, created_at := 3 }],
    products := [], users := [{ id := 3, email := "bob@Example.com" }],
    nextId := 2, now := 6 }

/-- A creation request with no items, no address, and no total. -/
def reqBad : OrderRequest :=
  { items := Option.none, shipping_address := Option.none,
    total_amount := Option.none }

/-!  Witness runs: each applies its claim's theorem at concrete input.  -/

theorem order_creation_valid_returns_created_witness :
    (createOrder dbW 3 reqW "R1" FailureOracle.none).1.httpStatus = 201 ∧
    (createOrder dbW 3 reqW "R1" FailureOracle.none).2.orders.map Order.status =
      ["pending"] :=
  have h := order_creation_valid_returns_created dbW 3 reqW "R1" (by decide)
  ⟨h.choose_spec.choose_spec.2.1, by decide⟩

theorem order_creation_stock_decrement_witness :
    lookupStock (createOrder dbW 3 reqW "R1" FailureOracle.none).2.products itemW7.id =
      some 4 ∧
    lookupStock (createOrder dbW 3 reqW "R1" FailureOracle.none).2.products itemW8.id =
      some 1 :=
  have h := order_creation_stock_decrement dbW 3 reqW "R1" FailureOracle.none
    (by decide) (by decide)
  ⟨(h.1 itemW7 (by decide)).trans (by decide),
   (h.1 itemW8 (by decide)).trans (by decide)⟩

theorem order_creation_rollback_on_line_failure_witness :
    (createOrder dbW 3 reqW "R1"
        { orderInsertFails := false, itemsInsertFails := true,
          historyInsertFails := false }).1 = CreateOrderResult.serverError ∧
    (createOrder dbW 3 reqW "R1"
        { orderInsertFails := false, itemsInsertFails := true,
          historyInsertFails := false }).2.orders = dbW.orders ∧
    (createOrder dbW 3 reqW "R1"
        { orderInsertFails := false, itemsInsertFails := true,
          historyInsertFails := false }).2.order_items = dbW.order_items ∧
    (createOrder dbW 3 reqW "R1"
        { orderInsertFails := false, itemsInsertFails := true,
          historyInsertFails := false }).2.order_status_history =
      dbW.order_status_history :=
  (order_creation_rollback_on_line_failure dbW 3 reqW "R1" (by decide)).1
    { orderInsertFails := false, itemsInsertFails := true, historyInsertFails := false }
    (by decide) rfl rfl

theorem order_creation_history_seed_amended_witness :
    historyFor (createOrder dbW 3 reqW "R1" FailureOracle.none).2 100 =
      [{ order_id := 100, status := "pending",
         comment := some "Order placed successfully",
         updated_by := Option.none, created_at := 52 }] := by
  obtain ⟨o, lines, heq, hhist⟩ :=
    order_creation_history_seed_amended dbW 3 reqW "R1" FailureOracle.none
      (by decide) rfl (by decide)
  have hconc :=
    createOrder_success_run dbW 3 reqW "R1" FailureOracle.none (by decide) rfl rfl
  have hoeq : CreateOrderResult.created o lines =
      CreateOrderResult.created (createdOrderRow dbW 3 reqW "R1")
        ((reqW.items.getD []).map (mkLine dbW.nextId)) :=
    heq.symm.trans (congrArg Prod.fst hconc)
  rw [CreateOrderResult.created.injEq] at hoeq
  rw [hoeq.1] at hhist
  exact hhist

theorem admin_status_transition_contract_witness :
    ((updateOrderStatus dbS 1 "shipped" Option.none (some "TRK123") 9).2.orders.map
        Order.status = ["shipped"]) ∧
    ((updateOrderStatus dbS 1 "shipped" Option.none (some "TRK123") 9).2.orders.map
        Order.tracking_number = [some "TRK123"]) ∧
    ((updateOrderStatus dbS 1 "shipped" Option.none (some "TRK123") 9).2.order_status_history.length = 2) ∧
    (((updateOrderStatus dbS 1 "shipped" Option.none (some "TRK123") 9).2.order_status_history.map
        HistoryEntry.status)[1]? = some "shipped") ∧
    ((updateOrderStatus dbS 1 "shipped" Option.none (some "TRK123") 9).2.order_status_history =
      dbS.order_status_history ++
        [{ order_id := 1, status := "shipped", comment := Option.none,
           updated_by := some 9, created_at := dbS.now }]) := by
  obtain ⟨o1, h1, hst, hid, htr, -, hhist⟩ :=
    (admin_status_transition_contract dbS 1 "shipped" Option.none (some "TRK123") 9).2.2
      orderS (by decide) (by decide)
  exact ⟨by decide, by decide, by decide, by decide, hhist⟩

theorem history_sort_amended_witness :
    AscendingByTime
      [{ order_id := 1, status := "pending", comment := Option.none,
         updated_by := Option.none, created_at := 3 },
       { order_id := 1, status := "shipped", comment := Option.none,
         updated_by := some 9, created_at := 5 }] :=
  history_sort_amended.1 dbT "ORD-100-A" (some "BOB@EXAMPLE.COM") orderS []
    [{ order_id := 1, status := "pending", comment := Option.none,
       updated_by := Option.none, created_at := 3 },
     { order_id := 1, status := "shipped", comment := Option.none,
       updated_by := some 9, created_at := 5 }]
    (by decide)

theorem order_creation_validation_rejects_witness :
    ∃ msg, createOrder dbW 3 reqBad "R1" FailureOracle.none =
      (CreateOrderResult.validationError msg, dbW) :=
  order_creation_validation_rejects dbW 3 reqBad "R1" FailureOracle.none (Or.inl rfl)

theorem tracking_lookup_contract_witness :
    trackOrder dbT "ORD-999" (some "bob@example.com") = TrackResult.notFound ∧
    trackOrder dbT "ORD-100-A" (some "evil@example.com") = TrackResult.forbidden :=
  ⟨(tracking_lookup_contract dbT "ORD-999" "bob@example.com" (by decide)).1 (by decide),
   ((tracking_lookup_contract dbT "ORD-100-A" "evil@example.com" (by decide)).2.2 orderS
      (by decide) { id := 3, email := "bob@Example.com" } (by decide)).1 (by decide)⟩

theorem post_creation_mutation_frame_witness :
    (updateOrderStatus dbS 1 "shipped" Option.none Option.none 9).2.orders.map
        Order.tracking_number =
      dbS.orders.map Order.tracking_number ∧
    (updateOrderNotes dbS 1 (some "vip customer")).order_items = dbS.order_items :=
  ⟨(post_creation_mutation_frame dbS 1 "shipped" Option.none Option.none 9
      (some "vip customer")).2.2.1 rfl,
   (post_creation_mutation_frame dbS 1 "shipped" Option.none Option.none 9
      (some "vip customer")).2.2.2.2⟩
